import Mathlib

/-!
Shallow embedding of the DHCPv4 wire-level transport core of pyroute2
(src/pyroute2/dhcp/): transaction identifiers (xids.py), lease timers
(timers.py), the BPF packet filter and the frame assembly/decoding code
(dhcp4socket.py), together with theorems checking the specification
claims against this embedding.

Python integers are modelled as Int (unbounded), bytes as Nat values
below 256, byte strings as List Nat.  Randomness is modelled by passing
the entropy consumed by random.randint explicitly as an argument.
-/

/- ===================== Definitions ===================== -/

/-! ## Transaction identifiers: src/pyroute2/dhcp/xids.py -/

/-- Models random.randint lo hi: an arbitrary draw from the inclusive
range [lo, hi], driven by an explicit entropy argument r.  Every value
of the range is the image of some r, and no value outside it is. -/
def randint (lo hi r : Nat) : Nat := lo + r % (hi - lo + 1)

/-- random_xid_prefix from xids.py: random.randint(0x00000010, 0xFFFFFFF0).
The function docstring asserts the result has its last nibble set to 0. -/
def random_xid_prefix (r : Nat) : Nat := randint 0x00000010 0xFFFFFFF0 r

/-- A DHCP transaction id; the single _value attribute of xids.Xid.
Python ints are unbounded, hence Int. -/
structure Xid where
  value : Int
deriving DecidableEq, Repr

/-- Modelled from the spec: pyroute2.dhcp.fsm.State (not under src/) is an
enumeration of protocol states representable in 4 bits, values 0 to 15;
the reverse lookup State(n) succeeds exactly on recognized tags 0 to 15
and unrecognized bit patterns map to no known state. States are modelled
by their integer values. -/
def State.lookup (n : Nat) : Option Nat :=
  if n < 16 then some n else none

/-- Xid.__init__ with an explicit value: assert value < 0xFFFFFFFF, a
failed assertion surfacing as a construction failure (none). -/
def Xid.ofValue (v : Int) : Option Xid :=
  if v < 0xFFFFFFFF then some ⟨v⟩ else none

/-- Xid.__init__ with value=None: value = random_xid_prefix(); this
path performs no range assertion. -/
def Xid.new (r : Nat) : Xid :=
  ⟨(( random_xid_prefix r : Nat) : Int)⟩

/-- Xid.random_part: self._value & 0xFFFFFFF0. -/
def Xid.random_part (x : Xid) : Int :=
  Int.land x.value 0xFFFFFFF0

/-- Xid.request_state: State(self._value & 0xF), returning None when the
nibble is not a recognized state tag. -/
def Xid.request_state (x : Xid) : Option Nat :=
  State.lookup (Int.land x.value 0xF).toNat

/-- Xid.for_state: Xid(self.random_part | state); the explicit-value
constructor runs the range assertion. -/
def Xid.for_state (x : Xid) (s : Nat) : Option Xid :=
  Xid.ofValue (Int.lor x.random_part (s : Int))

/-- Xid.matches: loose match on the random parts of both xids. -/
def Xid.matches (x other : Xid) : Bool :=
  x.random_part == other.random_part

/-! ## Lease timers: src/pyroute2/dhcp/timers.py -/

/-- The three named timer slots of the Timers dataclass, in declaration
order. -/
inductive TimerName
  | renewal
  | rebinding
  | expiration
deriving DecidableEq, Repr

/-- The lease boundary: renewal_in, rebinding_in and expiration_in are
durations in seconds, possibly negative (already past) or absent.
Python floats are modelled as rationals, None as none; the Python truth
test treats both None and 0.0 as falsy. -/
structure Lease where
  renewal_in : Option ℚ
  rebinding_in : Option ℚ
  expiration_in : Option ℚ

/-- getattr(lease, timer_name + "_in"). -/
def Lease.time_in (l : Lease) : TimerName → Option ℚ
  | .renewal => l.renewal_in
  | .rebinding => l.rebinding_in
  | .expiration => l.expiration_in

/-- Modelled from the spec: the asyncio event loop primitives used by
timers.py (not part of this repository). call_later hands out a fresh
handle scheduled after the given delay, TimerHandle.cancel marks the
handle cancelled, TimerHandle.cancelled reports that mark. Handles are
identified by consecutive id numbers. -/
structure EventLoop where
  nextId : Nat
  scheduled : List (Nat × ℚ)
  cancelledIds : List Nat

/-- loop.call_later(delay, callback): returns a fresh scheduled handle. -/
def EventLoop.call_later (l : EventLoop) (delay : ℚ) : Nat × EventLoop :=
  (l.nextId, ⟨l.nextId + 1, (l.nextId, delay) :: l.scheduled, l.cancelledIds⟩)

/-- handle.cancel(): mark the handle cancelled. -/
def EventLoop.cancelHandle (l : EventLoop) (id : Nat) : EventLoop :=
  { l with cancelledIds := id :: l.cancelledIds }

/-- handle.cancelled(): whether cancel was called on the handle. -/
def EventLoop.isCancelled (l : EventLoop) (id : Nat) : Bool :=
  decide (id ∈ l.cancelledIds)

/-- A pending timer callback fires iff its handle was scheduled and was
never cancelled before the deadline. -/
def EventLoop.fires (l : EventLoop) (id : Nat) : Prop :=
  (∃ d, (id, d) ∈ l.scheduled) ∧ id ∉ l.cancelledIds

/-- The Timers dataclass: one optional TimerHandle per slot. -/
structure Timers where
  renewal : Option Nat
  rebinding : Option Nat
  expiration : Option Nat

/-- getattr(self, timer_name). -/
def Timers.get (t : Timers) : TimerName → Option Nat
  | .renewal => t.renewal
  | .rebinding => t.rebinding
  | .expiration => t.expiration

/-- setattr(self, timer_name, v). -/
def Timers.set (t : Timers) : TimerName → Option Nat → Timers
  | .renewal, v => { t with renewal := v }
  | .rebinding, v => { t with rebinding := v }
  | .expiration, v => { t with expiration := v }

/-- Timers._reset_timer: if a handle is held in the slot, cancel it
(skipping the cancel call when the handle already reports cancelled)
and clear the slot. -/
def Timers.reset_timer (t : Timers) (l : EventLoop) (name : TimerName) :
    Timers × EventLoop :=
  match t.get name with
  | none => (t, l)
  | some id =>
      (t.set name none, if l.isCancelled id then l else l.cancelHandle id)

/-- Timers.cancel: reset the three slots in declaration order. -/
def Timers.cancel (t : Timers) (l : EventLoop) : Timers × EventLoop :=
  let p1 := t.reset_timer l .renewal
  let p2 := p1.1.reset_timer p1.2 .rebinding
  p2.1.reset_timer p2.2 .expiration

/-- One iteration of the arm loop for a supplied callback slot: reset
the slot, read the lease time, skip absent or zero (falsy) values, skip
negative values, otherwise schedule a fresh handle and store it. -/
def Timers.armStep (lease : Lease) (p : Timers × EventLoop)
    (name : TimerName) : Timers × EventLoop :=
  let q := p.1.reset_timer p.2 name
  match lease.time_in name with
  | none => q
  | some lease_time =>
      if lease_time = 0 then q
      else if lease_time < 0 then q
      else
        let r := q.2.call_later lease_time
        (q.1.set name (some r.1), r.2)

/-- Timers.arm: cancel all current timers unconditionally, then run the
arm loop over the supplied callbacks in iteration order. The callbacks
keyword mapping is modelled by the list of supplied slot names. -/
def Timers.arm (t : Timers) (l : EventLoop) (lease : Lease)
    (callbacks : List TimerName) : Timers × EventLoop :=
  callbacks.foldl (Timers.armStep lease) (t.cancel l)

/-- Scenario lease from the spec: renewal_in=30, rebinding_in=-5,
expiration_in=3600. -/
def lease_scenario : Lease := ⟨some 30, some (-5), some 3600⟩

/-- Arming a fresh Timers instance on a fresh loop with the scenario
lease and all three callbacks supplied. -/
def armed_scenario : Timers × EventLoop :=
  Timers.arm ⟨none, none, none⟩ ⟨0, [], []⟩ lease_scenario
    [.renewal, .rebinding, .expiration]

/-! ## BPF packet filter: listen_udp_port in src/pyroute2/dhcp/dhcp4socket.py -/

/-- Classic BPF opcode constants, as exposed by the BPF helper class
(pyroute2.ext.bpf, not under src/); the values are the standard classic
BPF instruction encoding of linux/filter.h. -/
def BPF.LD : Nat := 0x00

def BPF.LDX : Nat := 0x01

def BPF.JMP : Nat := 0x05

def BPF.RET : Nat := 0x06

def BPF.H : Nat := 0x08

def BPF.B : Nat := 0x10

def BPF.JEQ : Nat := 0x10

def BPF.ABS : Nat := 0x20

def BPF.IND : Nat := 0x40

def BPF.JSET : Nat := 0x40

def BPF.MSH : Nat := 0xa0

def BPF.K : Nat := 0x00

/-- Ancillary-data load offset base (dhcp4socket.py). -/
def SKF_AD_OFF : Int := -0x1000

/-- Ancillary offset of the vlan-tag-present indicator (dhcp4socket.py). -/
def SKF_AD_VLAN_TAG_PRESENT : Int := 48

/-- One BPF filter instruction: opcode, jump-true offset, jump-false
offset, immediate operand (kept as Int since the source stores the
negative ancillary offset in k). -/
structure BPFInstr where
  code : Nat
  jt : Nat
  jf : Nat
  k : Int
deriving Repr, DecidableEq

/-- listen_udp_port from dhcp4socket.py, instruction for instruction;
socket.IPPROTO_UDP is 17. -/
def listen_udp_port (port : Nat) : List BPFInstr :=
  [⟨BPF.LD + BPF.B + BPF.ABS, 0, 0, SKF_AD_OFF + SKF_AD_VLAN_TAG_PRESENT⟩,
   ⟨BPF.JMP + BPF.JEQ + BPF.K, 0, 10, 0⟩,
   ⟨BPF.LD + BPF.H + BPF.ABS, 0, 0, 12⟩,
   ⟨BPF.JMP + BPF.JEQ + BPF.K, 0, 8, 0x0800⟩,
   ⟨BPF.LD + BPF.B + BPF.ABS, 0, 0, 23⟩,
   ⟨BPF.JMP + BPF.JEQ + BPF.K, 0, 6, 17⟩,
   ⟨BPF.LD + BPF.H + BPF.ABS, 0, 0, 20⟩,
   ⟨BPF.JMP + BPF.JSET + BPF.K, 4, 0, 8191⟩,
   ⟨BPF.LDX + BPF.B + BPF.MSH, 0, 0, 14⟩,
   ⟨BPF.LD + BPF.H + BPF.IND, 0, 0, 16⟩,
   ⟨BPF.JMP + BPF.JEQ + BPF.K, 0, 1, (port : Int)⟩,
   ⟨BPF.RET + BPF.K, 0, 0, 65535⟩,
   ⟨BPF.RET + BPF.K, 0, 0, 0⟩]

/-- A raw Ethernet frame as the kernel filter engine sees it: the byte
payload plus the ancillary vlan-tag-present indicator. -/
structure RawFrame where
  vlanTagPresent : Bool
  bytes : List Nat

/-- Read one byte of a frame; none beyond the frame bounds. -/
def read8 (bs : List Nat) (i : Nat) : Option Nat := bs.get? i

/-- Read a 16-bit big-endian value of a frame; none beyond bounds. -/
def read16 (bs : List Nat) (i : Nat) : Option Nat :=
  match read8 bs i, read8 bs (i + 1) with
  | some hi, some lo => some (256 * hi + lo)
  | _, _ => none

/-- Modelled from the spec: the kernel packet filter engine evaluating a
classic BPF program over a raw frame (the engine is external to the
repository; the spec fixes its relevant behaviour). Only the opcodes
used by listen_udp_port are interpreted. The fuel argument bounds the
number of executed instructions; none means the program ran out of
bounds or hit an opcode outside this fragment, some n means the filter
returned capture length n. A load beyond the frame bounds terminates
the filter with return value 0 (drop); the negative ancillary offset
SKF_AD_OFF + SKF_AD_VLAN_TAG_PRESENT loads the vlan indicator as 0/1. -/
def bpfEval (prog : List BPFInstr) (fr : RawFrame) :
    Nat → Nat → Nat → Nat → Option Nat
  | 0, _, _, _ => none
  | fuel + 1, pc, a, x =>
    match prog.get? pc with
    | none => none
    | some i =>
      if i.code = BPF.RET + BPF.K then some i.k.toNat
      else if i.code = BPF.LD + BPF.B + BPF.ABS then
        if i.k = SKF_AD_OFF + SKF_AD_VLAN_TAG_PRESENT then
          bpfEval prog fr fuel (pc + 1) (if fr.vlanTagPresent then 1 else 0) x
        else if i.k < 0 then some 0
        else
          match read8 fr.bytes i.k.toNat with
          | some b => bpfEval prog fr fuel (pc + 1) b x
          | none => some 0
      else if i.code = BPF.LD + BPF.H + BPF.ABS then
        if i.k < 0 then some 0
        else
          match read16 fr.bytes i.k.toNat with
          | some v => bpfEval prog fr fuel (pc + 1) v x
          | none => some 0
      else if i.code = BPF.LDX + BPF.B + BPF.MSH then
        if i.k < 0 then some 0
        else
          match read8 fr.bytes i.k.toNat with
          | some b => bpfEval prog fr fuel (pc + 1) a (4 * (b % 16))
          | none => some 0
      else if i.code = BPF.LD + BPF.H + BPF.IND then
        if (x : Int) + i.k < 0 then some 0
        else
          match read16 fr.bytes ((x : Int) + i.k).toNat with
          | some v => bpfEval prog fr fuel (pc + 1) v x
          | none => some 0
      else if i.code = BPF.JMP + BPF.JEQ + BPF.K then
        bpfEval prog fr fuel (pc + 1 + (if (a : Int) = i.k then i.jt else i.jf)) a x
      else if i.code = BPF.JMP + BPF.JSET + BPF.K then
        bpfEval prog fr fuel
          (pc + 1 + (if Int.land (a : Int) i.k = 0 then i.jf else i.jt)) a x
      else none

/-- Run the filter built for a port on a frame, with fuel equal to the
program length (enough for any forward-jumping program). -/
def bpfRun (port : Nat) (fr : RawFrame) : Option Nat :=
  bpfEval (listen_udp_port port) fr (listen_udp_port port).length 0 0 0

/-- The acceptance condition the claim states: no vlan tag, 16-bit
Ethertype 0x0800 at offset 12, 8-bit IP protocol 17 (UDP) at offset 23,
the low 13 bits of the 16-bit flags and fragment-offset field at offset
20 all zero, and the 16-bit UDP destination port at 4 times the low
nibble of byte 14, plus 16, equal to the configured port; a read beyond
the frame bounds fails the condition. -/
def acceptSpec (port : Nat) (fr : RawFrame) : Bool :=
  !fr.vlanTagPresent &&
    (read16 fr.bytes 12 == some 0x0800) &&
    (read8 fr.bytes 23 == some 17) &&
    (match read16 fr.bytes 20 with
     | some frag => frag &&& 8191 == 0
     | none => false) &&
    (match read8 fr.bytes 14 with
     | some ihl =>
       match read16 fr.bytes (4 * (ihl % 16) + 16) with
       | some dport => dport == port
       | none => false
     | none => false)

/-- A jump instruction at position pc targets only strictly later
positions inside the program, on both branches. -/
def instrJumpsOk (len pc : Nat) (i : BPFInstr) : Bool :=
  if i.code % 8 = BPF.JMP then
    decide (pc + 1 + i.jt < len) && decide (pc + 1 + i.jf < len)
  else true

/-- Walk the program from position pc checking every instruction. -/
def jumpsOkFrom (len : Nat) : Nat → List BPFInstr → Bool
  | _, [] => true
  | pc, i :: rest => instrJumpsOk len pc i && jumpsOkFrom len (pc + 1) rest

/-- Every jump in the program is forward and in bounds. -/
def jumpsInBounds (prog : List BPFInstr) : Bool :=
  jumpsOkFrom prog.length 0 prog

/-! ## Frame codec: AsyncDHCP4Socket.put and _decode_msg in dhcp4socket.py -/

/-- UDP_HEADER_SIZE from dhcp4socket.py. -/
def UDP_HEADER_SIZE : Nat := 8

/-- IPV4_HEADER_SIZE from dhcp4socket.py. -/
def IPV4_HEADER_SIZE : Nat := 20

/-- ETHERTYPE_IP (pyroute2.compat). -/
def ETHERTYPE_IP : Nat := 0x0800

/-- socket.IPPROTO_UDP. -/
def IPPROTO_UDP : Nat := 17

/-- Big-endian byte split of a 16-bit value. -/
def bytes2 (n : Nat) : List Nat := [n / 256 % 256, n % 256]

/-- Big-endian byte split of a 32-bit value. -/
def bytes4 (n : Nat) : List Nat :=
  [n / 16777216 % 256, n / 65536 % 256, n / 256 % 256, n % 256]

/-- Big-endian byte split of a 48-bit value. -/
def bytes6 (n : Nat) : List Nat :=
  [n / 1099511627776 % 256, n / 4294967296 % 256, n / 16777216 % 256,
   n / 65536 % 256, n / 256 % 256, n % 256]

/-- Big-endian 16-bit value of two bytes. -/
def val2 (a b : Nat) : Nat := 256 * a + b

/-- Big-endian 32-bit value of four bytes. -/
def val4 (a b c d : Nat) : Nat := 16777216 * a + 65536 * b + 256 * c + d

/-- Big-endian 48-bit value of six bytes. -/
def val6 (a b c d e f : Nat) : Nat :=
  1099511627776 * a + 4294967296 * b + 16777216 * c + 65536 * d + 256 * e + f

/-- Modelled from the spec: pyroute2.protocols.ethmsg encoding (not
under src/): destination MAC, source MAC, 16-bit Ethertype, 14 bytes.
MAC addresses are modelled as 48-bit numbers, IPv4 addresses as 32-bit
numbers. -/
def ethEncode (dst src etype : Nat) : List Nat :=
  bytes6 dst ++ bytes6 src ++ bytes2 etype

/-- Modelled from the spec: pyroute2.protocols.ip4msg encoding (not
under src/): version/IHL byte 0x45 (20-byte header), type of service,
total length, id, flags and fragment offset, ttl (default 128),
protocol, header checksum, source and destination addresses. -/
def ip4Encode (tlen proto cs src dst : Nat) : List Nat :=
  [0x45, 0] ++ bytes2 tlen ++ bytes2 0 ++ bytes2 0 ++ [128, proto] ++
    bytes2 cs ++ bytes4 src ++ bytes4 dst

/-- Modelled from the spec: pyroute2.protocols.udpmsg encoding (not
under src/): source port, destination port, length, checksum, 8 bytes. -/
def udpEncode (sport dport ulen cs : Nat) : List Nat :=
  bytes2 sport ++ bytes2 dport ++ bytes2 ulen ++ bytes2 cs

/-- Modelled from the spec: pyroute2.protocols.udp4_pseudo_header (not
under src/): source and destination IPv4 address, a zero pad byte, the
UDP protocol number and the UDP length; used only for the checksum. -/
def udp4_pseudo_header (src dst ulen : Nat) : List Nat :=
  bytes4 src ++ bytes4 dst ++ [0, IPPROTO_UDP] ++ bytes2 ulen

/-- Pair consecutive bytes into big-endian 16-bit words, padding a
trailing odd byte with zero on the right. -/
def words16 : List Nat → List Nat
  | [] => []
  | [a] => [a * 256]
  | a :: b :: rest => (a * 256 + b) :: words16 rest

/-- Fold the carries of a ones-complement sum until the value fits 16
bits; the first argument is fuel driving termination (the initial sum
itself is always enough fuel). -/
def csumCarry : Nat → Nat → Nat
  | 0, acc => acc
  | fuel + 1, acc =>
      if acc < 65536 then acc else csumCarry fuel (acc % 65536 + acc / 65536)

/-- Modelled from the spec: the checksum helper of the raw-socket layer
(pyroute2.ext.rawsocket, not under src/): the standard ones-complement
16-bit checksum over the byte sequence, with a computed checksum of
zero encoded as all-ones per the UDP convention. -/
def csum (bs : List Nat) : Nat :=
  let s := (words16 bs).foldl (fun acc w => acc + w) 0
  let folded := csumCarry s s
  let c := 65535 - folded
  if c = 0 then 0xFFFF else c

/-- Modelled from the spec: SentDHCPMessage (pyroute2.dhcp.messages,
not under src/): the DHCP payload plus the frame addressing used by
put; the payload type stays abstract. An unset source MAC is none. -/
structure SentDHCPMessage (P : Type) where
  dhcp : P
  sport : Nat
  dport : Nat
  eth_src : Option Nat
  eth_dst : Nat
  ip_src : Nat
  ip_dst : Nat

/-- Modelled from the spec: ReceivedDHCPMessage (pyroute2.dhcp.messages,
not under src/): the decoded payload plus the header fields extracted
from the frame. -/
structure ReceivedDHCPMessage (P : Type) where
  dhcp : P
  eth_src : Nat
  eth_dst : Nat
  ip_src : Nat
  ip_dst : Nat
  sport : Nat
  dport : Nat

/-- The DHCP payload codec boundary (pyroute2.dhcp.dhcp4msg, external):
encode to bytes, decode from the bytes following the UDP header, read
and write the client hardware address field. -/
structure DHCPCodec (P : Type) where
  enc : P → List Nat
  dec : List Nat → Option P
  getChaddr : P → Option Nat
  setChaddr : P → Nat → P

/-- The failure put raises before assembling and sending anything. -/
inductive PutError
  | sourcePortMismatch (configured actual : Nat)
deriving DecidableEq, Repr

/-- AsyncDHCP4Socket.put: validate the source port against the
configured port, fill an unset source MAC from the interface address,
fill an unset DHCP client hardware address from the source MAC, encode
the payload, then build the UDP header (checksum over the pseudo
header, the zero-checksum UDP header and the payload), the IPv4 header
(checksum over the header alone) and the Ethernet header, and
concatenate the four layers. Returns the possibly mutated message and
the assembled frame, or the untouched message and the error raised
before any mutation. -/
def put {P : Type} (C : DHCPCodec P) (port l2addr : Nat)
    (msg : SentDHCPMessage P) :
    SentDHCPMessage P × Except PutError (List Nat) :=
  if msg.sport ≠ port then
    (msg, .error (.sourcePortMismatch port msg.sport))
  else
    let msg1 :=
      if msg.eth_src.isNone then { msg with eth_src := some l2addr } else msg
    let src := msg1.eth_src.getD 0
    let msg2 :=
      if (C.getChaddr msg1.dhcp).isNone then
        { msg1 with dhcp := C.setChaddr msg1.dhcp src }
      else msg1
    let data := C.enc msg2.dhcp
    let dhcp_payload_size := data.length
    let udp0 := udpEncode port msg2.dport (UDP_HEADER_SIZE + dhcp_payload_size) 0
    let udph := udp4_pseudo_header msg2.ip_src msg2.ip_dst
      (UDP_HEADER_SIZE + dhcp_payload_size)
    let uc := csum (udph ++ udp0 ++ data)
    let udp := udpEncode port msg2.dport (UDP_HEADER_SIZE + dhcp_payload_size) uc
    let ip0 := ip4Encode (IPV4_HEADER_SIZE + UDP_HEADER_SIZE + dhcp_payload_size)
      IPPROTO_UDP 0 msg2.ip_src msg2.ip_dst
    let ic := csum ip0
    let ip4 := ip4Encode (IPV4_HEADER_SIZE + UDP_HEADER_SIZE + dhcp_payload_size)
      IPPROTO_UDP ic msg2.ip_src msg2.ip_dst
    let eth := ethEncode msg2.eth_dst src ETHERTYPE_IP
    (msg2, .ok (eth ++ ip4 ++ udp ++ data))

/-- Modelled from the spec: ethmsg decode (not under src/): 14 fixed
bytes, failing on a shorter buffer; yields destination MAC, source MAC,
Ethertype and the bytes after the header. -/
def ethDecode : List Nat → Option (Nat × Nat × Nat × List Nat)
  | d0 :: d1 :: d2 :: d3 :: d4 :: d5 :: s0 :: s1 :: s2 :: s3 :: s4 :: s5 ::
      t0 :: t1 :: rest =>
      some (val6 d0 d1 d2 d3 d4 d5, val6 s0 s1 s2 s3 s4 s5, val2 t0 t1, rest)
  | _ => none

/-- Modelled from the spec: ip4msg decode (not under src/): reads the
fixed 20-byte header, failing on a shorter buffer, and advances by the
header length declared in the low nibble of the first byte scaled by 4
(accounting for IPv4 options); yields source address, destination
address, protocol and the bytes after the full header. -/
def ip4Decode : List Nat → Option (Nat × Nat × Nat × List Nat)
  | verlen :: _tos :: _l0 :: _l1 :: _i0 :: _i1 :: _f0 :: _f1 :: _ttl ::
      proto :: _c0 :: _c1 :: s0 :: s1 :: s2 :: s3 :: d0 :: d1 :: d2 :: d3 ::
      rest =>
      let hdrlen := 4 * (verlen % 16)
      if hdrlen < 20 then none
      else if rest.length < hdrlen - 20 then none
      else some (val4 s0 s1 s2 s3, val4 d0 d1 d2 d3, proto,
        rest.drop (hdrlen - 20))
  | _ => none

/-- Modelled from the spec: udpmsg decode (not under src/): 8 fixed
bytes; yields source port, destination port and the bytes after the
header. -/
def udpDecode : List Nat → Option (Nat × Nat × List Nat)
  | s0 :: s1 :: d0 :: d1 :: _l0 :: _l1 :: _c0 :: _c1 :: rest =>
      some (val2 s0 s1, val2 d0 d1, rest)
  | _ => none

/-- AsyncDHCP4Socket._decode_msg: strip the Ethernet, IPv4 and UDP
headers in order, decode the remaining bytes as DHCP, and collect the
address and port fields along the way; any layer failure is a decode
error (none). -/
def decode_msg {P : Type} (C : DHCPCodec P) (data : List Nat) :
    Option (ReceivedDHCPMessage P) :=
  match ethDecode data with
  | none => none
  | some (eth_dst, eth_src, _etype, r1) =>
    match ip4Decode r1 with
    | none => none
    | some (ip_src, ip_dst, _proto, r2) =>
      match udpDecode r2 with
      | none => none
      | some (sport, dport, r3) =>
        match C.dec r3 with
        | none => none
        | some dhcp =>
            some ⟨dhcp, eth_src, eth_dst, ip_src, ip_dst, sport, dport⟩

/-- Assemble a message with put and decode the produced frame back. -/
def assembleThenDecode {P : Type} (C : DHCPCodec P) (port l2addr : Nat)
    (msg : SentDHCPMessage P) : Option (ReceivedDHCPMessage P) :=
  match put C port l2addr msg with
  | (_, .ok frame) => decode_msg C frame
  | (_, .error _) => none

/-- A trivial concrete payload codec for witness checks: the payload is
its own byte encoding and carries a fixed client hardware address. -/
def listCodec : DHCPCodec (List Nat) :=
  ⟨fun p => p, fun bs => some bs, fun _ => some 1, fun p _ => p⟩

/-- A concrete well-formed message for witness checks. -/
def msg_witness : SentDHCPMessage (List Nat) :=
  ⟨[1, 2, 3], 68, 67, some 0x112233445566, 0xFFFFFFFFFFFF,
    0xC0A80001, 0xFFFFFFFF⟩

/- ===================== Theorems ===================== -/

/-! ## Helper lemmas -/

theorem int_land_natCast (a b : Nat) :
    Int.land (a : Int) (b : Int) = ((a &&& b : Nat) : Int) := rfl

theorem int_lor_natCast (a b : Nat) :
    Int.lor (a : Int) (b : Int) = ((a ||| b : Nat) : Int) := rfl

theorem nat_and_15_eq_mod (a : Nat) : a &&& 15 = a % 16 := by
  have h := Nat.and_pow_two_sub_one_eq_mod a 4
  norm_num at h
  exact h

theorem nat_or_eq_add (a s : Nat) (ha : a % 16 = 0) (hs : s < 16) :
    a ||| s = a + s := by
  have h := Nat.mul_add_lt_is_or (b := s) (i := 4) (by omega) (a / 16)
  have ha' : 2 ^ 4 * (a / 16) = a := by omega
  rw [ha'] at h
  omega

theorem random_xid_prefix_le (r : Nat) : random_xid_prefix r ≤ 0xFFFFFFF0 := by
  unfold random_xid_prefix randint
  have : r % (0xFFFFFFF0 - 0x00000010 + 1) < 0xFFFFFFF0 - 0x00000010 + 1 :=
    Nat.mod_lt _ (by norm_num)
  omega

/-! ## Claims about xids.py -/

/-- Claim C3 (code bug): the claim states every seedless Xid has its low
nibble equal to zero, matching the docstring of random_xid_prefix, but
random.randint(0x10, 0xFFFFFFF0) draws from the full inclusive range:
the possible draw 0x11 (entropy 1) is in range and has low nibble 1. -/
theorem random_xid_prefix_nibble_bug :
    0x10 ≤ random_xid_prefix 1 ∧ random_xid_prefix 1 ≤ 0xFFFFFFF0 ∧
      random_xid_prefix 1 = 0x11 ∧ (Xid.new 1).value % 16 = 1 := by
  refine ⟨by decide, by decide, by decide, ?_⟩
  decide

/-- Claim C4 (counterexample): the seedless draw 0xFFFFFFF0 is a possible
random_xid_prefix output (entropy 0xFFFFFFE0), and for_state 15 on the
resulting Xid fails the range assertion of the constructor instead of
producing an Xid, refuting the claim as stated for s = 15. -/
theorem xid_for_state_fifteen_overflow :
    random_xid_prefix 0xFFFFFFE0 = 0xFFFFFFF0 ∧
      (Xid.new 0xFFFFFFE0).for_state 15 = none := by
  constructor
  · decide
  · decide

/-- Claim C4 (amended): for every state tag s in 0..15 and every fresh
seedless Xid, provided the random part and s are not the single
overflowing combination (random part 0xFFFFFFF0 with s = 15, which makes
the constructor assertion fail), for_state s succeeds and the resulting
Xid answers request_state with some s. -/
theorem xid_for_state_request_state (r s : Nat) (hs : s < 16)
    (hne : (Xid.new r).random_part ≠ 0xFFFFFFF0 ∨ s ≠ 15) :
    ∃ x, (Xid.new r).for_state s = some x ∧ x.request_state = some s := by
  set vn := random_xid_prefix r with hvn
  have hvle : vn ≤ 0xFFFFFFF0 := random_xid_prefix_le r
  have hrp : (Xid.new r).random_part = ((vn &&& 0xFFFFFFF0 : Nat) : Int) := by
    rw [Xid.new, Xid.random_part, ← hvn]
    exact int_land_natCast vn 0xFFFFFFF0
  set a := vn &&& 0xFFFFFFF0 with hadef
  have h1 : a ≤ 0xFFFFFFF0 := Nat.and_le_right
  have h2 : a % 16 = 0 := by
    have hA : a &&& 15 = vn &&& (0xFFFFFFF0 &&& 15) := Nat.and_assoc vn _ 15
    rw [show ((0xFFFFFFF0 : Nat) &&& 15) = 0 from by decide, Nat.and_zero] at hA
    have := nat_and_15_eq_mod a
    omega
  have hne' : a ≠ 0xFFFFFFF0 ∨ s ≠ 15 := by
    rcases hne with h | h
    · left
      intro hc
      apply h
      rw [hrp, hc]
      rfl
    · right; exact h
  have h3 : a ||| s = a + s := nat_or_eq_add a s h2 hs
  have h4 : a + s < 0xFFFFFFFF := by omega
  have hfs : (Xid.new r).for_state s = Xid.ofValue ((a + s : Nat) : Int) := by
    rw [Xid.for_state, hrp, int_lor_natCast, h3]
  refine ⟨⟨((a + s : Nat) : Int)⟩, ?_, ?_⟩
  · rw [hfs, Xid.ofValue, if_pos]
    exact_mod_cast h4
  · rw [Xid.request_state]
    rw [show (⟨((a + s : Nat) : Int)⟩ : Xid).value = ((a + s : Nat) : Int) from rfl]
    rw [show (0xF : Int) = ((15 : Nat) : Int) from rfl, int_land_natCast]
    have hmod := nat_and_15_eq_mod (a + s)
    have hval : (a + s) &&& 15 = s := by omega
    rw [hval, Int.toNat_natCast]
    simp [State.lookup, hs]

/-- Witness for the amended claim C4 at r = 0, s = 3. -/
theorem xid_for_state_request_state_witness :
    ∃ x, (Xid.new 0).for_state 3 = some x ∧ x.request_state = some 3 :=
  xid_for_state_request_state 0 3 (by decide) (Or.inr (by decide))

/-- Claim C8: constructing an Xid with an explicit value at or above
0xFFFFFFFF fails the range assertion, surfacing immediately as a failed
construction. -/
theorem xid_explicit_value_out_of_range (v : Int) (h : 0xFFFFFFFF ≤ v) :
    Xid.ofValue v = none := by
  rw [Xid.ofValue, if_neg]
  omega

/-- Witness for claim C8 at v = 0xFFFFFFFF. -/
theorem xid_explicit_value_out_of_range_witness :
    Xid.ofValue 0xFFFFFFFF = none :=
  xid_explicit_value_out_of_range 0xFFFFFFFF (by decide)

/-- Claim C10: the explicit-value constructor applies no lower bound:
every integer strictly below 0xFFFFFFFF, negative values included, is
accepted and stored unchanged as the underlying value. -/
theorem xid_explicit_value_no_lower_bound (v : Int) (h : v < 0xFFFFFFFF) :
    Xid.ofValue v = some ⟨v⟩ := by
  rw [Xid.ofValue, if_pos h]

/-- Witness for claim C10 at v = -1, not a valid 32-bit unsigned value. -/
theorem xid_explicit_value_no_lower_bound_witness :
    Xid.ofValue (-1) = some ⟨-1⟩ :=
  xid_explicit_value_no_lower_bound (-1) (by decide)

/-! ## Claims about timers.py -/

theorem get_set_same (t : Timers) (n : TimerName) (v : Option Nat) :
    (t.set n v).get n = v := by
  cases n <;> rfl

theorem get_set_other (t : Timers) (n m : TimerName) (v : Option Nat)
    (h : n ≠ m) : (t.set m v).get n = t.get n := by
  cases n <;> cases m <;> simp_all [Timers.set, Timers.get]

theorem reset_get_same (t : Timers) (l : EventLoop) (n : TimerName) :
    (t.reset_timer l n).1.get n = none := by
  unfold Timers.reset_timer
  cases hg : t.get n with
  | none => simp [hg]
  | some id => simp [hg, get_set_same]

theorem reset_get_other (t : Timers) (l : EventLoop) (n m : TimerName)
    (h : n ≠ m) : (t.reset_timer l m).1.get n = t.get n := by
  unfold Timers.reset_timer
  cases hg : t.get m with
  | none => simp [hg]
  | some id => simp [hg, get_set_other t n m none h]

theorem reset_timer_cancelled_mono (t : Timers) (l : EventLoop)
    (name : TimerName) (id : Nat) (h : id ∈ l.cancelledIds) :
    id ∈ (t.reset_timer l name).2.cancelledIds := by
  unfold Timers.reset_timer
  cases hg : t.get name with
  | none => simpa [hg]
  | some j =>
      simp only [hg]
      split
      · exact h
      · exact List.mem_cons_of_mem _ h

theorem reset_timer_cancels_own (t : Timers) (l : EventLoop)
    (name : TimerName) (id : Nat) (h : t.get name = some id) :
    id ∈ (t.reset_timer l name).2.cancelledIds := by
  unfold Timers.reset_timer
  rw [h]
  by_cases hc : l.isCancelled id = true
  · simp only [if_pos hc]
    exact of_decide_eq_true hc
  · simp only [if_neg hc, EventLoop.cancelHandle]
    exact List.mem_cons_self id _

theorem cancel_cancels (t : Timers) (l : EventLoop) (name : TimerName)
    (id : Nat) (h : t.get name = some id) :
    id ∈ (t.cancel l).2.cancelledIds := by
  unfold Timers.cancel
  cases name with
  | renewal =>
      exact reset_timer_cancelled_mono _ _ _ _
        (reset_timer_cancelled_mono _ _ _ _ (reset_timer_cancels_own t l _ id h))
  | rebinding =>
      have hg : (t.reset_timer l .renewal).1.get .rebinding = some id := by
        rw [reset_get_other t l .rebinding .renewal (by decide)]; exact h
      exact reset_timer_cancelled_mono _ _ _ _ (reset_timer_cancels_own _ _ _ id hg)
  | expiration =>
      have hg1 : (t.reset_timer l .renewal).1.get .expiration = some id := by
        rw [reset_get_other t l .expiration .renewal (by decide)]; exact h
      have hg2 : (((t.reset_timer l .renewal).1.reset_timer
          (t.reset_timer l .renewal).2 .rebinding).1.get .expiration) = some id := by
        rw [reset_get_other _ _ .expiration .rebinding (by decide)]; exact hg1
      exact reset_timer_cancels_own _ _ _ id hg2

theorem armStep_cancelled_mono (lease : Lease) (p : Timers × EventLoop)
    (name : TimerName) (id : Nat) (h : id ∈ p.2.cancelledIds) :
    id ∈ (Timers.armStep lease p name).2.cancelledIds := by
  unfold Timers.armStep
  have h1 := reset_timer_cancelled_mono p.1 p.2 name id h
  cases ht : lease.time_in name with
  | none => simpa [ht]
  | some lease_time =>
      simp only [ht]
      split
      · exact h1
      · split
        · exact h1
        · simpa [EventLoop.call_later]

theorem foldl_armStep_cancelled_mono (lease : Lease) (cbs : List TimerName) :
    ∀ (p : Timers × EventLoop) (id : Nat), id ∈ p.2.cancelledIds →
      id ∈ (cbs.foldl (Timers.armStep lease) p).2.cancelledIds := by
  induction cbs with
  | nil => intro p id h; exact h
  | cons c cs ih =>
      intro p id h
      rw [List.foldl_cons]
      exact ih _ id (armStep_cancelled_mono lease p c id h)

/-- Claim C5: arm first cancels, via the unconditional cancel() call,
every handle held in a slot from any earlier arm call, before any new
handle is scheduled; the cancelled mark is never removed afterwards, so
no callback of a previously held handle ever fires after the new arm
returns. Slots hold at most one handle by construction (Option). -/
theorem timers_arm_cancels_previous (t : Timers) (l : EventLoop)
    (lease : Lease) (cbs : List TimerName) (name : TimerName) (id : Nat)
    (h : t.get name = some id) :
    id ∈ (t.cancel l).2.cancelledIds ∧
      ¬ (Timers.arm t l lease cbs).2.fires id := by
  have h1 := cancel_cancels t l name id h
  have h2 := foldl_armStep_cancelled_mono lease cbs (t.cancel l) id h1
  refine ⟨h1, fun hf => hf.2 ?_⟩
  rw [Timers.arm]
  exact h2

/-- Witness for claim C5: a Timers instance holding live handle 0 in the
renewal slot; after re-arming, handle 0 is cancelled and never fires. -/
theorem timers_arm_cancels_previous_witness :
    0 ∈ ((⟨some 0, none, none⟩ : Timers).cancel ⟨1, [(0, 5)], []⟩).2.cancelledIds ∧
      ¬ (Timers.arm ⟨some 0, none, none⟩ ⟨1, [(0, 5)], []⟩ lease_scenario
          [.renewal]).2.fires 0 :=
  timers_arm_cancels_previous ⟨some 0, none, none⟩ ⟨1, [(0, 5)], []⟩
    lease_scenario [.renewal] .renewal 0 rfl

theorem armStep_get_same (lease : Lease) (p : Timers × EventLoop)
    (name : TimerName) :
    ((Timers.armStep lease p name).1.get name).isSome ↔
      ∃ d, lease.time_in name = some d ∧ 0 < d := by
  unfold Timers.armStep
  cases ht : lease.time_in name with
  | none => simp [ht, reset_get_same]
  | some lease_time =>
      simp only [ht]
      by_cases h0 : lease_time = 0
      · rw [if_pos h0]
        simp only [reset_get_same, Option.isSome_none]
        constructor
        · intro hc; exact absurd hc (by decide)
        · rintro ⟨d, hd, hdpos⟩
          rw [Option.some_inj] at hd
          subst hd; subst h0
          exact absurd hdpos (by norm_num)
      · rw [if_neg h0]
        by_cases hneg : lease_time < 0
        · rw [if_pos hneg]
          simp only [reset_get_same, Option.isSome_none]
          constructor
          · intro hc; exact absurd hc (by decide)
          · rintro ⟨d, hd, hdpos⟩
            rw [Option.some_inj] at hd
            subst hd
            exact absurd hdpos (not_lt.mpr (le_of_lt hneg))
        · rw [if_neg hneg]
          simp only [get_set_same, Option.isSome_some, true_iff]
          exact ⟨lease_time, rfl,
            lt_of_le_of_ne (not_lt.mp hneg) (Ne.symm h0)⟩

theorem armStep_get_other (lease : Lease) (p : Timers × EventLoop)
    (name m : TimerName) (h : name ≠ m) :
    (Timers.armStep lease p m).1.get name = p.1.get name := by
  unfold Timers.armStep
  cases ht : lease.time_in m with
  | none => simp [ht, reset_get_other _ _ _ _ h]
  | some lease_time =>
      simp only [ht]
      split
      · exact reset_get_other _ _ _ _ h
      · split
        · exact reset_get_other _ _ _ _ h
        · rw [get_set_other _ _ _ _ h]
          exact reset_get_other _ _ _ _ h

theorem foldl_get_not_supplied (lease : Lease) (cbs : List TimerName)
    (name : TimerName) (h : name ∉ cbs) :
    ∀ p : Timers × EventLoop,
      (cbs.foldl (Timers.armStep lease) p).1.get name = p.1.get name := by
  induction cbs with
  | nil => intro p; rfl
  | cons c cs ih =>
      intro p
      rw [List.foldl_cons]
      have hc : name ≠ c := fun he => h (he ▸ List.mem_cons_self c cs)
      have hcs : name ∉ cs := fun hm => h (List.mem_cons_of_mem c hm)
      rw [ih hcs, armStep_get_other lease p name c hc]

theorem foldl_get_supplied (lease : Lease) (cbs : List TimerName)
    (name : TimerName) (h : name ∈ cbs) :
    ∀ p : Timers × EventLoop,
      ((cbs.foldl (Timers.armStep lease) p).1.get name).isSome ↔
        ∃ d, lease.time_in name = some d ∧ 0 < d := by
  induction cbs with
  | nil => cases h
  | cons c cs ih =>
      intro p
      rw [List.foldl_cons]
      by_cases hm : name ∈ cs
      · exact ih hm _
      · have hc : name = c := by
          rcases List.mem_cons.mp h with h1 | h2
          · exact h1
          · exact absurd h2 hm
        subst hc
        rw [foldl_get_not_supplied lease cs name hm]
        exact armStep_get_same lease p name

/-- Claim C6: for every lease and every supplied callback slot, arm
stores a handle in that slot iff the corresponding lease time is present
and strictly positive; absent, zero and negative values are skipped. -/
theorem timers_arm_slot_iff (t : Timers) (l : EventLoop) (lease : Lease)
    (cbs : List TimerName) (name : TimerName) (h : name ∈ cbs) :
    ((Timers.arm t l lease cbs).1.get name).isSome ↔
      ∃ d, lease.time_in name = some d ∧ 0 < d := by
  rw [Timers.arm]
  exact foldl_get_supplied lease cbs name h _

/-- Witness for claim C6: the spec scenario renewal_in=30,
rebinding_in=-5, expiration_in=3600 arms exactly the renewal and
expiration slots. -/
theorem timers_arm_slot_iff_witness :
    ((armed_scenario.1.get .renewal).isSome ↔
        ∃ d, lease_scenario.time_in .renewal = some d ∧ 0 < d) ∧
      ((armed_scenario.1.get .rebinding).isSome ↔
        ∃ d, lease_scenario.time_in .rebinding = some d ∧ 0 < d) ∧
      ((armed_scenario.1.get .expiration).isSome ↔
        ∃ d, lease_scenario.time_in .expiration = some d ∧ 0 < d) ∧
      armed_scenario.1.renewal.isSome = true ∧
      armed_scenario.1.rebinding = none ∧
      armed_scenario.1.expiration.isSome = true := by
  refine ⟨?_, ?_, ?_, ?_, ?_, ?_⟩
  · exact timers_arm_slot_iff _ _ _ _ .renewal (by decide)
  · exact timers_arm_slot_iff _ _ _ _ .rebinding (by decide)
  · exact timers_arm_slot_iff _ _ _ _ .expiration (by decide)
  · decide
  · decide
  · decide

/-! ## Claims about the BPF filter -/

theorem bpfRun_characterization (port : Nat) (fr : RawFrame) :
    bpfRun port fr = some (if acceptSpec port fr then 65535 else 0) := by
  rcases fr with ⟨vlan, bs⟩
  have h655 : (65535 : Int).toNat = 65535 := rfl
  have h0 : (0 : Int).toNat = 0 := rfl
  cases vlan with
  | true =>
      simp [bpfRun, bpfEval, listen_udp_port, acceptSpec, BPF.LD, BPF.LDX,
        BPF.JMP, BPF.RET, BPF.H, BPF.B, BPF.JEQ, BPF.ABS, BPF.IND, BPF.JSET,
        BPF.MSH, BPF.K, SKF_AD_OFF, SKF_AD_VLAN_TAG_PRESENT, h0]
  | false =>
      rcases h12 : read16 bs 12 with _ | v12
      · simp [bpfRun, bpfEval, listen_udp_port, acceptSpec, BPF.LD, BPF.LDX,
          BPF.JMP, BPF.RET, BPF.H, BPF.B, BPF.JEQ, BPF.ABS, BPF.IND, BPF.JSET,
          BPF.MSH, BPF.K, SKF_AD_OFF, SKF_AD_VLAN_TAG_PRESENT, h12, h0]
      · by_cases hv12 : v12 = 0x0800
        · subst hv12
          rcases h23 : read8 bs 23 with _ | v23
          · simp [bpfRun, bpfEval, listen_udp_port, acceptSpec, BPF.LD,
              BPF.LDX, BPF.JMP, BPF.RET, BPF.H, BPF.B, BPF.JEQ, BPF.ABS,
              BPF.IND, BPF.JSET, BPF.MSH, BPF.K, SKF_AD_OFF,
              SKF_AD_VLAN_TAG_PRESENT, h12, h23, h0]
          · by_cases hv23 : v23 = 17
            · subst hv23
              rcases h20 : read16 bs 20 with _ | v20
              · simp [bpfRun, bpfEval, listen_udp_port, acceptSpec, BPF.LD,
                  BPF.LDX, BPF.JMP, BPF.RET, BPF.H, BPF.B, BPF.JEQ, BPF.ABS,
                  BPF.IND, BPF.JSET, BPF.MSH, BPF.K, SKF_AD_OFF,
                  SKF_AD_VLAN_TAG_PRESENT, h12, h23, h20, h0]
              · have hland : Int.land (v20 : Int) 8191 =
                    ((v20 &&& 8191 : Nat) : Int) := rfl
                by_cases hfrag : v20 &&& 8191 = 0
                · have hfragi : Int.land (v20 : Int) 8191 = 0 := by
                    rw [hland, hfrag]; rfl
                  rcases h14 : read8 bs 14 with _ | b14
                  · simp [bpfRun, bpfEval, listen_udp_port, acceptSpec, BPF.LD,
                      BPF.LDX, BPF.JMP, BPF.RET, BPF.H, BPF.B, BPF.JEQ,
                      BPF.ABS, BPF.IND, BPF.JSET, BPF.MSH, BPF.K, SKF_AD_OFF,
                      SKF_AD_VLAN_TAG_PRESENT, h12, h23, h20, h14, hfragi,
                      hfrag, h0]
                  · have hnneg : ¬(4 * ((b14 : Int) % 16) + 16 < 0) := by
                      omega
                    have htn : (4 * ((b14 : Int) % 16) + 16).toNat =
                        4 * (b14 % 16) + 16 := by omega
                    have hnneg2 : ¬(((4 * (b14 % 16) : Nat) : Int) + 16 < 0) := by
                      omega
                    have htn2 : (((4 * (b14 % 16) : Nat) : Int) + 16).toNat =
                        4 * (b14 % 16) + 16 := by omega
                    rcases hdp : read16 bs (4 * (b14 % 16) + 16) with _ | dport
                    · simp [bpfRun, bpfEval, listen_udp_port, acceptSpec,
                        BPF.LD, BPF.LDX, BPF.JMP, BPF.RET, BPF.H, BPF.B,
                        BPF.JEQ, BPF.ABS, BPF.IND, BPF.JSET, BPF.MSH, BPF.K,
                        SKF_AD_OFF, SKF_AD_VLAN_TAG_PRESENT, h12, h23, h20,
                        h14, hfragi, hfrag, hnneg, htn, hnneg2, htn2, hdp, h0]
                    · by_cases hp : dport = port
                      · subst hp
                        simp [bpfRun, bpfEval, listen_udp_port, acceptSpec,
                          BPF.LD, BPF.LDX, BPF.JMP, BPF.RET, BPF.H, BPF.B,
                          BPF.JEQ, BPF.ABS, BPF.IND, BPF.JSET, BPF.MSH, BPF.K,
                          SKF_AD_OFF, SKF_AD_VLAN_TAG_PRESENT, h12, h23, h20,
                          h14, hfragi, hfrag, hnneg, htn, hnneg2, htn2, hdp, h655, h0]
                      · have hpi : ¬((dport : Int) = (port : Int)) := by
                          exact_mod_cast hp
                        simp [bpfRun, bpfEval, listen_udp_port, acceptSpec,
                          BPF.LD, BPF.LDX, BPF.JMP, BPF.RET, BPF.H, BPF.B,
                          BPF.JEQ, BPF.ABS, BPF.IND, BPF.JSET, BPF.MSH, BPF.K,
                          SKF_AD_OFF, SKF_AD_VLAN_TAG_PRESENT, h12, h23, h20,
                          h14, hfragi, hfrag, hnneg, htn, hnneg2, htn2, hdp, hp, hpi, h0]
                · have hfragi : ¬(Int.land (v20 : Int) 8191 = 0) := by
                    rw [hland]
                    exact_mod_cast hfrag
                  simp [bpfRun, bpfEval, listen_udp_port, acceptSpec, BPF.LD,
                    BPF.LDX, BPF.JMP, BPF.RET, BPF.H, BPF.B, BPF.JEQ, BPF.ABS,
                    BPF.IND, BPF.JSET, BPF.MSH, BPF.K, SKF_AD_OFF,
                    SKF_AD_VLAN_TAG_PRESENT, h12, h23, h20, hfragi, hfrag, h0]
            · have hv23i : ¬((v23 : Int) = 17) := by exact_mod_cast hv23
              simp [bpfRun, bpfEval, listen_udp_port, acceptSpec, BPF.LD,
                BPF.LDX, BPF.JMP, BPF.RET, BPF.H, BPF.B, BPF.JEQ, BPF.ABS,
                BPF.IND, BPF.JSET, BPF.MSH, BPF.K, SKF_AD_OFF,
                SKF_AD_VLAN_TAG_PRESENT, h12, h23, hv23, hv23i, h0]
        · have hv12i : ¬((v12 : Int) = 2048) := by exact_mod_cast hv12
          simp [bpfRun, bpfEval, listen_udp_port, acceptSpec, BPF.LD, BPF.LDX,
            BPF.JMP, BPF.RET, BPF.H, BPF.B, BPF.JEQ, BPF.ABS, BPF.IND,
            BPF.JSET, BPF.MSH, BPF.K, SKF_AD_OFF, SKF_AD_VLAN_TAG_PRESENT,
            h12, hv12, hv12i, h0]

/-- Claim C2: for every port, the filter built by listen_udp_port
accepts a frame with the maximum capture length 65535 iff the frame has
no vlan tag, Ethertype 0x0800 at offset 12, IP protocol UDP at offset
23, all low 13 bits of the flags and fragment-offset field at offset 20
zero, and the 16-bit UDP destination port at 4 times the low nibble of
byte 14, plus 16, equal to the port; in every other case, including any
read beyond the frame bounds, it drops (length 0). The checks
short-circuit in program order, as the single-pass evaluation shows. -/
theorem listen_udp_port_semantics (port : Nat) (fr : RawFrame) :
    bpfRun port fr = some (if acceptSpec port fr then 65535 else 0) :=
  bpfRun_characterization port fr

/-- Claim C9: for every port and every frame, evaluation of the filter
program terminates at a terminal return instruction yielding drop (0)
or accept (65535) within program-length many steps, and every jump
offset in the program targets a strictly later instruction inside the
program bounds. -/
theorem listen_udp_port_terminates (port : Nat) (fr : RawFrame) :
    (bpfRun port fr = some 0 ∨ bpfRun port fr = some 65535) ∧
      jumpsInBounds (listen_udp_port port) = true := by
  constructor
  · have h := bpfRun_characterization port fr
    by_cases hs : acceptSpec port fr
    · right; rw [h, if_pos hs]
    · left; rw [h, if_neg hs]
  · simp [jumpsInBounds, jumpsOkFrom, instrJumpsOk, listen_udp_port, BPF.LD,
      BPF.LDX, BPF.JMP, BPF.RET, BPF.H, BPF.B, BPF.JEQ, BPF.ABS, BPF.IND,
      BPF.JSET, BPF.MSH, BPF.K]

/-! ## Claims about the frame codec -/

/-- Claim C7: when the message source port differs from the configured
port, put fails with the configuration-mismatch error and returns the
message completely unmodified; no source-MAC or chaddr auto-fill
happens. The channel configuration (port, interface address) is
read-only for put, so subsequent sends are unaffected. -/
theorem put_source_port_mismatch {P : Type} (C : DHCPCodec P)
    (port l2addr : Nat) (msg : SentDHCPMessage P) (h : msg.sport ≠ port) :
    put C port l2addr msg =
      (msg, .error (.sourcePortMismatch port msg.sport)) := by
  rw [put, if_pos h]

/-- Witness for claim C7: sending from port 69 on a channel bound to 68
fails and leaves the message as it was. -/
theorem put_source_port_mismatch_witness :
    put listCodec 68 0 { msg_witness with sport := 69 } =
      ({ msg_witness with sport := 69 },
        .error (.sourcePortMismatch 68 69)) :=
  put_source_port_mismatch listCodec 68 0 _ (by decide)

theorem val2_digits (n : Nat) (h : n < 2 ^ 16) :
    val2 (n / 256 % 256) (n % 256) = n := by
  unfold val2; omega

theorem val4_digits (n : Nat) (h : n < 2 ^ 32) :
    val4 (n / 16777216 % 256) (n / 65536 % 256) (n / 256 % 256) (n % 256) =
      n := by
  unfold val4; omega

theorem val6_digits (n : Nat) (h : n < 2 ^ 48) :
    val6 (n / 1099511627776 % 256) (n / 4294967296 % 256)
      (n / 16777216 % 256) (n / 65536 % 256) (n / 256 % 256) (n % 256) =
      n := by
  unfold val6; omega

/-- Claim C1: for every well-formed SentDHCPMessage (source port equal
to the configured port, source MAC and client hardware address set,
payload that its codec round-trips), assembling with put leaves the
message untouched and decoding the produced frame reproduces the same
DHCP payload, the same source and destination MAC addresses, the same
source and destination IPv4 addresses, and the same source and
destination UDP ports. -/
theorem put_decode_roundtrip {P : Type} (C : DHCPCodec P) (port l2addr : Nat)
    (msg : SentDHCPMessage P) (es : Nat)
    (hsport : msg.sport = port)
    (hsrc : msg.eth_src = some es)
    (hch : (C.getChaddr msg.dhcp).isSome = true)
    (hrt : C.dec (C.enc msg.dhcp) = some msg.dhcp)
    (hes : es < 2 ^ 48) (hed : msg.eth_dst < 2 ^ 48)
    (hip1 : msg.ip_src < 2 ^ 32) (hip2 : msg.ip_dst < 2 ^ 32)
    (hp : port < 2 ^ 16) (hdp : msg.dport < 2 ^ 16) :
    (put C port l2addr msg).1 = msg ∧
      assembleThenDecode C port l2addr msg =
        some ⟨msg.dhcp, es, msg.eth_dst, msg.ip_src, msg.ip_dst, port,
          msg.dport⟩ := by
  obtain ⟨dh, sp, dp, esrc, ed, i1, i2⟩ := msg
  dsimp only at hsport hsrc hch hrt hed hip1 hip2 hdp ⊢
  subst hsport
  subst hsrc
  rcases hgc : C.getChaddr dh with _ | ch
  · rw [hgc] at hch
    exact absurd hch (by decide)
  · have hic : (C.getChaddr dh).isNone = false := by rw [hgc]; rfl
    constructor
    · simp [put, hic]
    · simp [assembleThenDecode, put, hic, ethEncode, ip4Encode, udpEncode,
        bytes2, bytes4, bytes6, UDP_HEADER_SIZE, IPV4_HEADER_SIZE,
        ETHERTYPE_IP, IPPROTO_UDP, decode_msg, ethDecode, ip4Decode,
        udpDecode, hrt, val6_digits es hes, val6_digits ed hed,
        val4_digits i1 hip1, val4_digits i2 hip2, val2_digits sp hp,
        val2_digits dp hdp]

/-- Witness for claim C1: a concrete message round-trips through
assembly and decoding with all its addressing fields intact. -/
theorem put_decode_roundtrip_witness :
    (put listCodec 68 0 msg_witness).1 = msg_witness ∧
      assembleThenDecode listCodec 68 0 msg_witness =
        some ⟨msg_witness.dhcp, 0x112233445566, msg_witness.eth_dst,
          msg_witness.ip_src, msg_witness.ip_dst, 68, msg_witness.dport⟩ :=
  put_decode_roundtrip listCodec 68 0 msg_witness 0x112233445566 rfl rfl rfl
    rfl (by decide) (by decide) (by decide) (by decide) (by decide)
    (by decide)
